import Mathlib

/-!
Verification development for the Ladybug legacy Grasshopper components
"Ladybug_Psychrometric Chart.py" and "Ladybug_3D Chart.py".

The Python source is shallowly embedded here.  The components run under
IronPython 2, so `/` on two ints is floor division, `round` rounds half away
from zero, and list indexing with a negative index wraps once from the end.
Geometry (Rhino curves, breps, containment tests) and the external comfort
model `lb_comfortModels.calcComfRange` are external library calls: regions
are embedded as containment predicates (the source compares
`str(polygon.Contains(pt, ...))` with the string "Inside", a Bool per point),
the boolean-union primitive as an oracle describing the outcome for a pair of
curves, and the comfort-model call by the record of arguments handed to it.
Numeric samples are embedded as rationals.  Failures raised by the Python
runtime (ZeroDivisionError, IndexError, NameError) are embedded as an
`Except` error value.
-/

/-- Python runtime errors that the embedded code can raise. -/
inductive PyErr : Type
  | zeroDivision
  | indexError
  | nameError
deriving DecidableEq, Repr

/-! ## checkTheInputs: the barometricPressure_ branch
("Ladybug_Psychrometric Chart.py", lines 156-184).

The source first tries to read the input as EPW-tagged data (a header whose
third entry contains "Barometric Pressure"); that branch only fires for
string-tagged lists, so a list of plain numbers falls through to the numeric
loop embedded here.  `float(item)` never fails on a number, so the
`except: checkData3 = False` arm is unreachable for numeric input. -/

/-- One pass of the numeric validation loop: state is
`(checkData3, nonValue, barPress)`, exactly the three variables the source
threads through its `for item in barometricPressure_` loop. -/
def barPressLoop : List ℚ → Bool → Bool → List ℚ → Bool × Bool × List ℚ
  | [], checkData3, nonValue, barPress => (checkData3, nonValue, barPress)
  | v :: rest, checkData3, nonValue, barPress =>
    if 0 ≤ v ∧ v ≤ 100 then barPressLoop rest true nonValue (barPress ++ [v])
    else barPressLoop rest checkData3 false barPress

/-- The barometric-pressure input check for a plain numeric list: returns the
final `checkData3` flag (after the trailing `if nonValue == False:
checkData3 = False`) and the accepted `barPress` list.  An empty input takes
the `else` branch of the source and yields the 101325 Pa default. -/
def checkBarometricPressureNumeric (items : List ℚ) : Bool × List ℚ :=
  match items with
  | [] => (true, [101325])
  | _ :: _ =>
    let st := barPressLoop items false true []
    (st.1 && st.2.1, st.2.2)

/-! ## unionAllCurves ("Ladybug_Psychrometric Chart.py", lines 811-843).

The tournament pass walks the curve list two at a time.  For each pair it
calls `rs.CurveBooleanUnion`, which returns the list of union curves on
success and an empty list when no union could be made; the call (or the
document bookkeeping around it) can also raise.  The loop variable `a` is
only assigned when the union returned a non-empty list, so when the union
reports no overlap the subsequent `if a == None:` test reads either an
unbound name (first pair: NameError, caught by the `except:` arm which keeps
only `Curves[curveCount]`) or the stale result of the previous pair (which is
then extended into `res` again).  An odd trailing curve raises IndexError at
`Curves[curveCount + 1]` and the `except:` arm keeps it. -/

/-- Outcome of `rs.CurveBooleanUnion` on one pair of curves: `ret r` is a
normal return of the curve list `r` (empty when the curves do not overlap),
`raise` is an exception anywhere inside the `try:` block. -/
inductive UnionOutcome (α : Type) : Type
  | ret (r : List α)
  | raise

/-- One pair iteration of `unionAllCurves`: given the previous binding of `a`
(`none` = still unbound) and the pair `(c1, c2)`, returns the new binding of
`a` and the curves extended onto `res`. -/
def unionPairStep {α : Type} (u : α → α → UnionOutcome α) (aPrev : Option (List α))
    (c1 c2 : α) : Option (List α) × List α :=
  match u c1 c2 with
  | .raise => (some [c1], [c1])
  | .ret r =>
    if r.isEmpty then
      match aPrev with
      | none => (some [c1], [c1])
      | some prev => (some prev, prev)
    else (some r, r)

/-- The `for curveCount in range(0, len(Curves), 2)` loop, threading `a`. -/
def unionAllCurvesGo {α : Type} (u : α → α → UnionOutcome α) :
    Option (List α) → List α → List α
  | _, [] => []
  | _, [c] => [c]
  | aPrev, c1 :: c2 :: rest =>
    let step := unionPairStep u aPrev c1 c2
    step.2 ++ unionAllCurvesGo u step.1 rest

/-- `unionAllCurves(Curves)` with the union primitive `u` as an oracle. -/
def unionAllCurves {α : Type} (u : α → α → UnionOutcome α) (Curves : List α) : List α :=
  unionAllCurvesGo u none Curves

/-! ### Lemmas for the C10 input-check claim -/

theorem barPressLoop_all_good (items : List ℚ) :
    ∀ c nv acc, (∀ v ∈ items, 0 ≤ v ∧ v ≤ 100) →
      barPressLoop items c nv acc =
        (c || !items.isEmpty, nv, acc ++ items) := by
  induction items with
  | nil => intro c nv acc _; simp [barPressLoop]
  | cons v rest ih =>
    intro c nv acc hgood
    have hv : 0 ≤ v ∧ v ≤ 100 := hgood v (List.mem_cons_self v rest)
    have hrest : ∀ w ∈ rest, 0 ≤ w ∧ w ≤ 100 := fun w hw => hgood w (List.mem_cons_of_mem v hw)
    simp only [barPressLoop, if_pos hv]
    rw [ih true nv (acc ++ [v]) hrest]
    cases rest <;> simp

/-- `nonValue` stays `false` for the rest of the loop once cleared. -/
theorem barPressLoop_nonValue_false (items : List ℚ) :
    ∀ c acc, (barPressLoop items c false acc).2.1 = false := by
  induction items with
  | nil => intro c acc; simp [barPressLoop]
  | cons v rest ih =>
    intro c acc
    by_cases hv : 0 ≤ v ∧ v ≤ 100
    · simpa only [barPressLoop, if_pos hv] using ih true (acc ++ [v])
    · simpa only [barPressLoop, if_neg hv] using ih c acc

theorem barPressLoop_bad_elem (items : List ℚ) :
    ∀ c nv acc v, v ∈ items → ¬(0 ≤ v ∧ v ≤ 100) →
      (barPressLoop items c nv acc).2.1 = false := by
  induction items with
  | nil => intro c nv acc v hv; exact absurd hv (List.not_mem_nil v)
  | cons w rest ih =>
    intro c nv acc v hv hbad
    rcases List.mem_cons.mp hv with h | h
    · subst h
      simp only [barPressLoop, if_neg hbad]
      exact barPressLoop_nonValue_false rest c acc
    · by_cases hw : 0 ≤ w ∧ w ≤ 100
      · simpa only [barPressLoop, if_pos hw] using ih true nv (acc ++ [w]) v h hbad
      · simpa only [barPressLoop, if_neg hw] using ih c false acc v h hbad

/-- C10: a barometric pressure supplied directly as numbers is accepted iff
every value lies in [0, 100]; in particular the documented sea-level value
101325 Pa is flagged invalid, and an empty input yields the 101325 default. -/
theorem C10_barometric_pressure_check :
    (∀ items : List ℚ,
      (checkBarometricPressureNumeric items).1 = true ↔ ∀ v ∈ items, 0 ≤ v ∧ v ≤ 100) ∧
    checkBarometricPressureNumeric [] = (true, [101325]) ∧
    (checkBarometricPressureNumeric [101325]).1 = false := by
  refine ⟨fun items => ?_, rfl, by decide⟩
  match items with
  | [] => simp [checkBarometricPressureNumeric]
  | w :: rest =>
    constructor
    · intro hok v hv
      by_contra hbad
      have := barPressLoop_bad_elem (w :: rest) false true [] v hv hbad
      simp only [checkBarometricPressureNumeric] at hok
      rw [Bool.and_eq_true] at hok
      rw [this] at hok
      exact Bool.false_ne_true hok.2
    · intro hgood
      simp only [checkBarometricPressureNumeric]
      rw [barPressLoop_all_good (w :: rest) false true [] hgood]
      simp

/-- C6: when the boolean union of a pair reports no overlap, only the first
curve of the pair survives (the second is dropped); and on a later pair the
stale previous result is extended again, dropping both curves of the pair. -/
theorem C6_union_failure_drops_curves :
    unionAllCurves (fun _ _ => UnionOutcome.ret ([] : List Nat)) [1, 2] = [1] ∧
    unionAllCurves (fun c1 _ => if c1 = 1 then UnionOutcome.ret [9] else UnionOutcome.ret [])
      [1, 2, 3, 4] = [9, 9] := by
  constructor <;> rfl

/-! ## checkConditionalStatement
("Ladybug_Psychrometric Chart.py", lines 444-514 and
"Ladybug_3D Chart.py", lines 55-130).

Both components compile the user's conditional statement into a Python
expression over `selList[num][HOY]` and `exec` it for each hour.  The
compiled predicate is embedded as a per-hour function that either returns a
Bool or raises.  The psychrometric version validates every connected list
(frequency "Hourly", start (1,1,1), end (12,31,24), exactly 8760 samples) and
returns the `(-1, -1)` sentinel otherwise; its evaluation loop sits inside a
single `try:`, so the first raising hour aborts the whole check with the
sentinel.  The 3D-chart version only requires all headers to share the first
list's start and end hour, and wraps each hour in its own `try: ...
except: pass`, so a raising hour appends nothing. -/

/-- Header fields `listInfo[i][4]`, `[5]`, `[6]` of a connected hourly list. -/
structure HourlyListInfo : Type where
  frequency : String
  startDate : Nat × Nat × Nat
  endDate : Nat × Nat × Nat
deriving DecidableEq, Repr

/-- The full-year hourly header produced by the Import EPW component. -/
def hourlyFullYearInfo : HourlyListInfo :=
  { frequency := "Hourly", startDate := (1, 1, 1), endDate := (12, 31, 24) }

/-- The compiled predicate for a statement of the single-series form
`"a > c"`: reading `selList[0][HOY]` raises IndexError past the end. -/
def seriesGtPredicate (sel : List ℚ) (c : ℚ) (h : Nat) : Except Unit Bool :=
  match sel.get? h with
  | some v => .ok (decide (c < v))
  | none => .error ()

/-- The psychrometric chart's evaluation loop: one `try:` around all hours,
so the first raising hour discards the partial pattern list. -/
def evalPatternAbort (p : Nat → Except Unit Bool) : List Nat → Option (List Bool)
  | [] => some []
  | h :: rest =>
    match p h with
    | .error _ => none
    | .ok b => (evalPatternAbort p rest).map (fun l => b :: l)

/-- `checkConditionalStatement` of the psychrometric chart, from the header
validation on: `none` is the `(-1, -1)` sentinel return. -/
def psychCheckConditionalStatement (lists : List (HourlyListInfo × List ℚ))
    (p : Nat → Except Unit Bool) : Option (List Bool) :=
  if lists.all (fun il =>
      il.1.frequency = "Hourly" && il.1.startDate = (1, 1, 1) &&
      il.1.endDate = (12, 31, 24) && il.2.length = 8760) then
    evalPatternAbort p (List.range 8760)
  else none

/-- The 3D chart's evaluation loop: `try: ... except: pass` per hour, so a
raising hour contributes no entry at all. -/
def evalPatternSkip (p : Nat → Except Unit Bool) (hoys : List Nat) : List Bool :=
  hoys.filterMap (fun h => (p h).toOption)

/-- `checkConditionalStatement` of the 3D chart, from the header validation
on: every header must share the first list's start and end hour. -/
def chart3DCheckConditionalStatement (lists : List (HourlyListInfo × List ℚ))
    (p : Nat → Except Unit Bool) : Option (List Bool) :=
  match lists with
  | [] => none
  | first :: rest =>
    if (first :: rest).all (fun il =>
        il.1.startDate = first.1.startDate && il.1.endDate = first.1.endDate) then
      some (evalPatternSkip p (List.range 8760))
    else none

/-! ### Lemmas for the C7 and C8 claims -/

theorem evalPatternAbort_all_ok (p : Nat → Except Unit Bool) (q : Nat → Bool) :
    ∀ hoys : List Nat, (∀ h ∈ hoys, p h = .ok (q h)) →
      evalPatternAbort p hoys = some (hoys.map q) := by
  intro hoys
  induction hoys with
  | nil => intro _; rfl
  | cons h rest ih =>
    intro hall
    have hh := hall h (List.mem_cons_self h rest)
    simp only [evalPatternAbort, hh, List.map_cons]
    rw [ih (fun k hk => hall k (List.mem_cons_of_mem h hk))]
    rfl

theorem evalPatternAbort_err (p : Nat → Except Unit Bool) (h : Nat) :
    ∀ hoys : List Nat, h ∈ hoys → (p h).toOption = none →
      evalPatternAbort p hoys = none := by
  intro hoys
  induction hoys with
  | nil => intro hmem; exact absurd hmem (List.not_mem_nil h)
  | cons k rest ih =>
    intro hmem herr
    rcases List.mem_cons.mp hmem with hk | hk
    · subst hk
      match hp : p h with
      | .error _ => simp [evalPatternAbort, hp]
      | .ok b => rw [hp] at herr; exact absurd herr (by simp [Except.toOption])
    · match hp : p k with
      | .error _ => simp [evalPatternAbort, hp]
      | .ok b => simp [evalPatternAbort, hp, ih hk herr]

theorem evalPatternSkip_length (p : Nat → Except Unit Bool) (hoys : List Nat) :
    (evalPatternSkip p hoys).length = hoys.countP (fun h => (p h).toOption.isSome) := by
  induction hoys with
  | nil => rfl
  | cons h rest ih =>
    simp only [evalPatternSkip, List.filterMap_cons] at *
    match hp : (p h).toOption with
    | none => simp [List.countP_cons, hp, ih]
    | some b => simp [List.countP_cons, hp, ih]

/-- C7 (amended): the psychrometric evaluator only accepts full-year hourly
series of exactly 8760 samples; on such input with a never-raising predicate
it applies the predicate to every hour index 0..8759 and returns the mask of
length 8760.  Series of any other length are rejected with the sentinel. -/
theorem C7_evaluator_mask (lists : List (HourlyListInfo × List ℚ))
    (p : Nat → Except Unit Bool) (q : Nat → Bool)
    (hvalid : lists.all (fun il =>
      il.1.frequency = "Hourly" && il.1.startDate = (1, 1, 1) &&
      il.1.endDate = (12, 31, 24) && il.2.length = 8760) = true)
    (hp : ∀ h, h < 8760 → p h = .ok (q h)) :
    psychCheckConditionalStatement lists p = some ((List.range 8760).map q) ∧
    ((List.range 8760).map q).length = 8760 := by
  constructor
  · simp only [psychCheckConditionalStatement, hvalid, if_pos]
    exact evalPatternAbort_all_ok p q (List.range 8760)
      (fun h hh => hp h (List.mem_range.mp hh))
  · simp

/-- Witness for C7 at a concrete valid input. -/
theorem C7_evaluator_mask_witness :
    psychCheckConditionalStatement [(hourlyFullYearInfo, List.replicate 8760 (0 : ℚ))]
      (fun _ => .ok true) = some ((List.range 8760).map (fun _ => true)) :=
  (C7_evaluator_mask [(hourlyFullYearInfo, List.replicate 8760 (0 : ℚ))]
    (fun _ => .ok true) (fun _ => true)
    (by simp only [List.all_cons, List.all_nil, hourlyFullYearInfo, List.length_replicate]; decide)
    (fun _ _ => rfl)).1

/-- C7 counterexample: the spec's concrete example a=[10,20,30], b=[50,50,50]
with the statement "a>15" is rejected by the psychrometric evaluator with the
(-1,-1) sentinel (series length 3 is not 8760), even though the compiled
predicate evaluates to false, true, true on hours 0, 1, 2. -/
theorem C7_short_series_rejected :
    psychCheckConditionalStatement
      [(hourlyFullYearInfo, [10, 20, 30]), (hourlyFullYearInfo, [50, 50, 50])]
      (seriesGtPredicate [10, 20, 30] 15) = none ∧
    seriesGtPredicate [10, 20, 30] 15 0 = .ok false ∧
    seriesGtPredicate [10, 20, 30] 15 1 = .ok true ∧
    seriesGtPredicate [10, 20, 30] 15 2 = .ok true := by
  refine ⟨?_, rfl, rfl, rfl⟩
  simp only [psychCheckConditionalStatement]
  rw [if_neg (by decide)]

/-- C8 (amended): under the 3D chart's skip policy a raising hour contributes
no entry at all, so the mask length is the number of non-raising hours (not
8760); under the psychrometric chart's abort policy any raising hour below
8760 makes the whole check return the sentinel with no mask. -/
theorem C8_failure_policies (info : HourlyListInfo) (sel : List ℚ)
    (lists : List (HourlyListInfo × List ℚ)) (p : Nat → Except Unit Bool)
    (h : Nat) (hh : h < 8760) (herr : (p h).toOption = none)
    (hvalid : lists.all (fun il =>
      il.1.frequency = "Hourly" && il.1.startDate = (1, 1, 1) &&
      il.1.endDate = (12, 31, 24) && il.2.length = 8760) = true) :
    (∃ mask, chart3DCheckConditionalStatement [(info, sel)] p = some mask ∧
      mask.length = (List.range 8760).countP (fun k => (p k).toOption.isSome)) ∧
    psychCheckConditionalStatement lists p = none := by
  constructor
  · refine ⟨evalPatternSkip p (List.range 8760), ?_, evalPatternSkip_length p _⟩
    simp [chart3DCheckConditionalStatement]
  · simp only [psychCheckConditionalStatement, hvalid, if_pos]
    exact evalPatternAbort_err p h (List.range 8760) (List.mem_range.mpr hh) herr

/-- Witness for C8 at a concrete input whose predicate raises at hour 0. -/
theorem C8_failure_policies_witness :
    (∃ mask, chart3DCheckConditionalStatement [(hourlyFullYearInfo, ([] : List ℚ))]
        (fun _ => .error ()) = some mask ∧
      mask.length = (List.range 8760).countP
        (fun k => ((fun _ : Nat => (Except.error () : Except Unit Bool)) k).toOption.isSome)) ∧
    psychCheckConditionalStatement [(hourlyFullYearInfo, List.replicate 8760 (0 : ℚ))]
      (fun _ => .error ()) = none :=
  C8_failure_policies hourlyFullYearInfo [] [(hourlyFullYearInfo, List.replicate 8760 (0 : ℚ))]
    (fun _ => .error ()) 0 (by decide) rfl
    (by simp only [List.all_cons, List.all_nil, hourlyFullYearInfo, List.length_replicate]; decide)

/-- C8 counterexample: a predicate raising at every hour yields an empty mask
from the 3D chart's skip policy, not a length-8760 mask of `false` entries. -/
theorem C8_skipped_hours_shrink_mask :
    chart3DCheckConditionalStatement [(hourlyFullYearInfo, ([] : List ℚ))]
      (fun _ => .error ()) = some [] ∧ (0 : Nat) ≠ 8760 := by
  constructor
  · simp only [chart3DCheckConditionalStatement, List.all_cons, List.all_nil]
    rw [if_pos (by simp)]
    refine congrArg some ?_
    simp only [evalPatternSkip, List.filterMap_eq_nil_iff]
    intro a _
    rfl
  · decide

/-! ## statisticallyAnalyzePolygons
("Ladybug_Psychrometric Chart.py", lines 1313-1411).

The function receives the chart points of the samples, the comfort polygons,
the strategy polygons, the unioned coverage curves, and classifies every
point against every polygon.  A polygon is embedded as its containment
predicate (the truth of `str(polygon.Contains(pt, ...)) == "Inside"`).  The
EPW header strings that the source prepends to each returned boolean list
when `epwData` is true (lines 1329-1341, 1356-1368, 1396-1406) are
presentation metadata spliced in front of the numeric entries; the embedding
returns the numeric lists themselves, which those insertions do not alter. -/

/-- Python list indexing: a negative index wraps once from the end, anything
still out of range raises IndexError (`none`). -/
def pyWrapGet {α : Type} (l : List α) (i : Int) : Option α :=
  if 0 ≤ i then l.get? i.toNat
  else if 0 ≤ i + l.length then l.get? (i + l.length).toNat
  else none

/-- The per-polygon containment pass (lines 1320-1323, 1347-1350, 1374-1377):
1 for a point strictly inside, else 0. -/
def containMask {α : Type} (region : α → Bool) (hourPts : List α) : List Nat :=
  hourPts.map (fun p => if region p then 1 else 0)

/-- The guarded percentage of the comfort and coverage loops (lines
1324-1327, 1378-1381): note the IronPython 2 floor division of two ints. -/
def guardedPercent (comfBool : List Nat) : Nat :=
  if comfBool.length ≠ 0 then comfBool.sum / comfBool.length * 100 else 100

/-- The unguarded percentage of the strategy loop (line 1354): an empty
sample list raises ZeroDivisionError. -/
def unguardedPercent (comfBool : List Nat) : Except PyErr Nat :=
  if comfBool.length = 0 then .error .zeroDivision
  else .ok (comfBool.sum / comfBool.length * 100)

/-- The special "Thermal Mass + Night Vent" pass (lines 1351-1353): an hour
counts only if its point is inside and `airTemp[hourCt-12]` is below the
limit; Python's `and` short-circuits, so the air temperature is only indexed
for points that are inside. -/
def nightVentMaskFrom {α : Type} (region : α → Bool) (airTemp : List ℚ) (limit : ℚ) :
    Nat → List α → Except PyErr (List Nat)
  | _, [] => .ok []
  | hourCt, p :: rest =>
    if region p then
      match pyWrapGet airTemp ((hourCt : Int) - 12) with
      | some t =>
        (nightVentMaskFrom region airTemp limit (hourCt + 1) rest).map
          (fun r => (if t < limit then 1 else 0) :: r)
      | none => .error .indexError
    else
      (nightVentMaskFrom region airTemp limit (hourCt + 1) rest).map
        (fun r => (0 : Nat) :: r)

/-- The branch on the strategy's name (lines 1346-1353): every strategy but
"Thermal Mass + Night Vent" — and that one too when no EPW data is connected
or a conditional pattern is active — gets the plain containment pass. -/
def strategyHourMask {α : Type} (name : String) (epwData : Bool) (patternList : List Bool)
    (region : α → Bool) (airTemp : List ℚ) (limit : ℚ) (hourPts : List α) :
    Except PyErr (List Nat) :=
  if name ≠ "Thermal Mass + Night Vent" ∨ epwData = false ∨ patternList ≠ [] then
    .ok (containMask region hourPts)
  else
    nightVentMaskFrom region airTemp limit 0 hourPts

/-- The strategy loop (lines 1344-1369): `countComf` is the index left over
from the comfort loop, so the polygon's name sits at
`strategyTextNames[countComf + countStrat + 1]`. -/
def strategyLoopFrom {α : Type} (strategyTextNames : List String) (countComf : Nat)
    (epwData : Bool) (patternList : List Bool) (airTemp : List ℚ) (limit : ℚ)
    (hourPts : List α) : Nat → List (α → Bool) → Except PyErr (List Nat × List (List Nat))
  | _, [] => .ok ([], [])
  | countStrat, poly :: rest => do
    let name ← match strategyTextNames.get? (countComf + countStrat + 1) with
      | some s => Except.ok s
      | none => Except.error PyErr.indexError
    let mask ← strategyHourMask name epwData patternList poly airTemp limit hourPts
    let pct ← unguardedPercent mask
    let tail ← strategyLoopFrom strategyTextNames countComf epwData patternList airTemp
      limit hourPts (countStrat + 1) rest
    Except.ok (pct :: tail.1, mask :: tail.2)

/-- One `finalComfOrNot[count] = finalComfOrNot[count] + item` pass (lines
1391-1394): an item list longer than the accumulator would raise IndexError. -/
def accumComfOrNot (acc item : List Nat) : Except PyErr (List Nat) :=
  if item.length ≤ acc.length then
    .ok (List.zipWith (· + ·) acc item ++ acc.drop item.length)
  else .error .indexError

/-- The coverage aggregation loop (lines 1388-1394): the first mask is
copied, every later one is added entrywise. -/
def buildFinalComfOrNotGo : List (List Nat) → List Nat → Except PyErr (List Nat)
  | [], acc => .ok acc
  | l :: ls, acc => do
    let acc' ← accumComfOrNot acc l
    buildFinalComfOrNotGo ls acc'

def buildFinalComfOrNot : List (List Nat) → Except PyErr (List Nat)
  | [] => .ok []
  | first :: rest => buildFinalComfOrNotGo rest first

/-- The numeric outputs of `statisticallyAnalyzePolygons`. -/
structure AnalyzeOut : Type where
  finalTotalPercent : Nat
  finalComfOrNot : List Nat
  strategyPercent : List Nat
  strategyOrNot : List (List Nat)
deriving DecidableEq, Repr

/-- `statisticallyAnalyzePolygons`.  If the comfort loop never ran (no
comfort polygon) the strategy loop's read of `countComf` raises NameError;
`limit` in the strategy loop is `maxComfortPolyTemp - tempBelowComf`. -/
def statisticallyAnalyzePolygons {α : Type} (hourPts : List α)
    (comfortPolyline strategyPolylines unionedCurves : List (α → Bool))
    (epwData : Bool) (strategyTextNames : List String) (tempBelowComf : ℚ)
    (airTemp : List ℚ) (maxComfortPolyTemp : ℚ) (patternList : List Bool) :
    Except PyErr AnalyzeOut := do
  let comfMasks := comfortPolyline.map (fun r => containMask r hourPts)
  let comfPercents := comfMasks.map guardedPercent
  let strat ←
    match strategyPolylines with
    | [] => Except.ok (([], []) : List Nat × List (List Nat))
    | _ :: _ =>
      match comfortPolyline.length with
      | 0 => Except.error PyErr.nameError
      | n + 1 =>
        strategyLoopFrom strategyTextNames n epwData patternList airTemp
          (maxComfortPolyTemp - tempBelowComf) hourPts 0 strategyPolylines
  let covMasks := unionedCurves.map (fun u => containMask u hourPts)
  let covPercents := covMasks.map guardedPercent
  let finalComfOrNot ← buildFinalComfOrNot covMasks
  Except.ok
    { finalTotalPercent := covPercents.sum
      finalComfOrNot := finalComfOrNot
      strategyPercent := comfPercents ++ strat.1
      strategyOrNot := comfMasks ++ strat.2 }

/-! ### Lemmas for the C1 companion-hour claim -/

/-- Claim-side statement of the companion-hour rule: the sample read for hour
`h` is the one 12 hours earlier, cyclically, i.e. at `(h + L - 12) % L`. -/
def companionFlag {α : Type} (region : α → Bool) (airTemp : List ℚ) (limit : ℚ)
    (h : Nat) (p : α) : Nat :=
  if region p then
    match airTemp.get? ((h + airTemp.length - 12) % airTemp.length) with
    | some t => if t < limit then 1 else 0
    | none => 0
  else 0

def companionMaskFrom {α : Type} (region : α → Bool) (airTemp : List ℚ) (limit : ℚ) :
    Nat → List α → List Nat
  | _, [] => []
  | h, p :: rest =>
    companionFlag region airTemp limit h p ::
      companionMaskFrom region airTemp limit (h + 1) rest

theorem pyWrapGet_eq_mod (airTemp : List ℚ) (h : Nat) (h12 : 12 ≤ airTemp.length)
    (hh : h < airTemp.length) :
    pyWrapGet airTemp ((h : Int) - 12) =
      airTemp.get? ((h + airTemp.length - 12) % airTemp.length) := by
  by_cases hcase : 12 ≤ h
  · have hpos : (0 : Int) ≤ (h : Int) - 12 := by omega
    have htn : ((h : Int) - 12).toNat = h - 12 := by omega
    have hmod : (h + airTemp.length - 12) % airTemp.length = h - 12 := by
      have hsplit : h + airTemp.length - 12 = (h - 12) + airTemp.length := by omega
      rw [hsplit, Nat.add_mod_right]
      exact Nat.mod_eq_of_lt (by omega)
    simp only [pyWrapGet, if_pos hpos, htn, hmod]
  · have hneg : ¬(0 : Int) ≤ (h : Int) - 12 := by omega
    have hnn : (0 : Int) ≤ (h : Int) - 12 + airTemp.length := by omega
    have htn : ((h : Int) - 12 + airTemp.length).toNat = h + airTemp.length - 12 := by omega
    have hmod : (h + airTemp.length - 12) % airTemp.length = h + airTemp.length - 12 :=
      Nat.mod_eq_of_lt (by omega)
    simp only [pyWrapGet, if_neg hneg, if_pos hnn, htn, hmod]

theorem nightVentMaskFrom_spec {α : Type} (region : α → Bool) (airTemp : List ℚ)
    (limit : ℚ) (h12 : 12 ≤ airTemp.length) :
    ∀ (rest : List α) (start : Nat), start + rest.length ≤ airTemp.length →
      nightVentMaskFrom region airTemp limit start rest =
        .ok (companionMaskFrom region airTemp limit start rest) := by
  intro rest
  induction rest with
  | nil => intro start _; rfl
  | cons p tail ih =>
    intro start hle
    have hstart : start < airTemp.length := by
      simp only [List.length_cons] at hle; omega
    have heq := pyWrapGet_eq_mod airTemp start h12 hstart
    have hlt : (start + airTemp.length - 12) % airTemp.length < airTemp.length :=
      Nat.mod_lt _ (by omega)
    obtain ⟨t, ht⟩ : ∃ t, airTemp.get?
        ((start + airTemp.length - 12) % airTemp.length) = some t :=
      ⟨airTemp.get ⟨_, hlt⟩, List.get?_eq_get hlt⟩
    have htail := ih (start + 1) (by simp only [List.length_cons] at hle; omega)
    by_cases hr : region p
    · simp only [nightVentMaskFrom, companionMaskFrom, companionFlag, if_pos hr,
        heq, ht, htail, Except.map]
    · simp only [nightVentMaskFrom, companionMaskFrom, companionFlag, if_neg hr,
        htail, Except.map]

/-- C1 (amended): the companion-hour rule belongs to the "Thermal Mass +
Night Vent" strategy — and fires only when EPW data is connected and no
conditional pattern is active.  Then an hour counts iff its point is inside
and the dry-bulb sample 12 hours earlier (cyclically) is below
`maxComfortPolyTemp - tempBelowComf`.  Every other strategy region, and that
one in every other configuration, gets the plain containment test. -/
theorem C1_companion_hour_rule {α : Type} (name : String) (epwData : Bool)
    (patternList : List Bool) (region : α → Bool) (airTemp : List ℚ) (limit : ℚ)
    (hourPts : List α) (h12 : 12 ≤ airTemp.length)
    (hlen : hourPts.length ≤ airTemp.length) :
    (¬(name = "Thermal Mass + Night Vent" ∧ epwData = true ∧ patternList = []) →
      strategyHourMask name epwData patternList region airTemp limit hourPts =
        .ok (containMask region hourPts)) ∧
    (name = "Thermal Mass + Night Vent" → epwData = true → patternList = [] →
      strategyHourMask name epwData patternList region airTemp limit hourPts =
        .ok (companionMaskFrom region airTemp limit 0 hourPts)) := by
  constructor
  · intro hnot
    have hcond : name ≠ "Thermal Mass + Night Vent" ∨ epwData = false ∨ patternList ≠ [] := by
      by_contra hc
      push_neg at hc
      exact hnot ⟨hc.1, by cases epwData <;> simp_all, hc.2.2⟩
    simp only [strategyHourMask, if_pos hcond]
  · intro h1 h2 h3
    subst h1; subst h2; subst h3
    have hcond : ¬("Thermal Mass + Night Vent" ≠ "Thermal Mass + Night Vent" ∨
        true = false ∨ ([] : List Bool) ≠ []) := by simp
    simp only [strategyHourMask, if_neg hcond]
    exact nightVentMaskFrom_spec region airTemp limit h12 hourPts 0
      (by simpa using hlen)

/-- Witness for C1 at a concrete input taking the companion branch. -/
theorem C1_companion_hour_rule_witness :
    strategyHourMask "Thermal Mass + Night Vent" true [] (fun _ : Unit => true)
      (List.replicate 12 (0 : ℚ)) 1 [()] =
    .ok (companionMaskFrom (fun _ : Unit => true) (List.replicate 12 (0 : ℚ)) 1 0 [()]) :=
  (C1_companion_hour_rule "Thermal Mass + Night Vent" true [] (fun _ : Unit => true)
    (List.replicate 12 (0 : ℚ)) 1 [()] (by simp) (by simp)).2 rfl rfl rfl

/-- C1 counterexample: a strategy labeled "Occupant Use of Fans" (with EPW
data connected and no conditional pattern) is classified with the plain
containment test: all 12 points inside give the mask of 1s and 100 percent,
even though every companion sample (100) is at or above the limit (0 - 0),
for which the claim demands an all-0 mask. -/
theorem C1_fans_plain_containment :
    statisticallyAnalyzePolygons (List.replicate 12 ()) [fun _ => false] [fun _ => true]
      [] true ["Comfort", "Occupant Use of Fans"] 0 (List.replicate 12 (100 : ℚ)) 0 [] =
      .ok ⟨0, [], [0, 100], [List.replicate 12 0, List.replicate 12 1]⟩ ∧
    ¬((100 : ℚ) < 0 - 0) := by
  constructor
  · rfl
  · norm_num

/-- C2: with an empty sample set, any strategy polygon makes the run raise
ZeroDivisionError at the strategy-percent line (which, unlike the comfort and
coverage percent computations, has no emptiness guard), instead of reporting
the vacuous 100.  The guarded loops do report 100 on the same input. -/
theorem C2_empty_samples_raise :
    statisticallyAnalyzePolygons ([] : List Unit) [fun _ => true] [fun _ => true]
      [fun _ => true] false ["Comfort", "Evaporative Cooling"] 0 [] 0 [] =
      .error .zeroDivision ∧
    guardedPercent (containMask (fun _ : Unit => true) []) = 100 := ⟨rfl, rfl⟩

/-- C3: IronPython 2 floor division makes the reported percent
`(sum(comfBool) / len(comfBool)) * 100`, which is 0 for 1 inside hour out of
4 — not the 25 the documentation's real-valued percentage promises. -/
theorem C3_percent_floor_division :
    statisticallyAnalyzePolygons [(0 : ℚ), 1, 2, 3] [fun p => decide (p < 1)] []
      [fun p => decide (p < 1)] false ["Comfort"] 0 [] 0 [] =
      .ok ⟨0, [1, 0, 0, 0], [0], [[1, 0, 0, 0]]⟩ ∧
    (1 : Nat) * 100 / 4 = 25 := ⟨rfl, rfl⟩

/-! ### Lemmas for the C4 coverage-aggregation claim -/

/-- C4 counterexample: two overlapping unioned coverage shapes around one
sample point: the aggregate entry is 2 (not a boolean 0/1) and the total
coverage percent is 200, exceeding 100. -/
theorem C4_coverage_counterexample :
    statisticallyAnalyzePolygons [()] [fun _ => true] [] [fun _ => true, fun _ => true]
      false ["Comfort"] 0 [] 0 [] = .ok ⟨200, [2], [100], [[1]]⟩ ∧
    100 < 200 := ⟨rfl, by norm_num⟩

theorem getD_zipWith_add :
    ∀ (a b : List Nat) (i : Nat), i < a.length → i < b.length →
      (List.zipWith (· + ·) a b).getD i 0 = a.getD i 0 + b.getD i 0 := by
  intro a
  induction a with
  | nil => intro b i hia _; exact absurd hia (by simp)
  | cons x xs ih =>
    intro b i hia hib
    match b, i with
    | [], _ => exact absurd hib (by simp)
    | y :: ys, 0 => rfl
    | y :: ys, j + 1 =>
      simp only [List.zipWith_cons_cons, List.getD_cons_succ]
      exact ih ys j (by simpa using hia) (by simpa using hib)

theorem accumComfOrNot_same_length (acc item : List Nat) (hlen : item.length = acc.length) :
    accumComfOrNot acc item = .ok (List.zipWith (· + ·) acc item) := by
  simp [accumComfOrNot, hlen, List.drop_length]

theorem buildFinalComfOrNotGo_spec (masks : List (List Nat)) :
    ∀ acc : List Nat, (∀ m ∈ masks, m.length = acc.length) →
      ∃ r, buildFinalComfOrNotGo masks acc = .ok r ∧ r.length = acc.length ∧
        ∀ i, i < acc.length →
          r.getD i 0 = acc.getD i 0 + (masks.map (fun m => m.getD i 0)).sum := by
  induction masks with
  | nil => intro acc _; exact ⟨acc, rfl, rfl, fun i _ => by simp⟩
  | cons m ms ih =>
    intro acc hlen
    have hm : m.length = acc.length := hlen m (List.mem_cons_self m ms)
    have hzlen : (List.zipWith (· + ·) acc m).length = acc.length := by
      simp [List.length_zipWith, hm]
    obtain ⟨r, hr, hrlen, hri⟩ := ih (List.zipWith (· + ·) acc m)
      (fun x hx => by rw [hzlen]; exact hlen x (List.mem_cons_of_mem m hx))
    refine ⟨r, ?_, by rw [hrlen, hzlen], fun i hi => ?_⟩
    · simp only [buildFinalComfOrNotGo, accumComfOrNot_same_length acc m hm]
      exact hr
    · rw [hri i (by rw [hzlen]; exact hi),
        getD_zipWith_add acc m i hi (by rw [hm]; exact hi)]
      simp [Nat.add_assoc]

theorem containMask_length {α : Type} (region : α → Bool) (hourPts : List α) :
    (containMask region hourPts).length = hourPts.length := by
  simp [containMask]

theorem containMask_getD {α : Type} (region : α → Bool) (hourPts : List α)
    (i : Nat) (hi : i < hourPts.length) :
    (containMask region hourPts).getD i 0 =
      if region (hourPts.get ⟨i, hi⟩) then 1 else 0 := by
  have hlen : i < (containMask region hourPts).length := by
    rw [containMask_length]; exact hi
  rw [List.getD_eq_getElem _ _ hlen]
  simp [containMask]

theorem sum_indicator_countP {α : Type} (us : List (α → Bool)) (x : α) :
    (us.map (fun u => if u x then (1 : Nat) else 0)).sum = us.countP (fun u => u x) := by
  induction us with
  | nil => rfl
  | cons u rest ih =>
    by_cases hu : u x <;> simp [List.countP_cons, hu, ih, Nat.add_comm]

theorem containMask_entry_le_one {α : Type} (region : α → Bool) (hourPts : List α) :
    ∀ x ∈ containMask region hourPts, x ≤ 1 := by
  intro x hx
  obtain ⟨p, _, hp⟩ := List.mem_map.mp hx
  by_cases h : region p <;> simp [← hp, h]

theorem guardedPercent_le_100_of_entries_le_one (mask : List Nat)
    (hone : ∀ x ∈ mask, x ≤ 1) : guardedPercent mask ≤ 100 := by
  by_cases hlen : mask.length = 0
  · simp [guardedPercent, hlen]
  · have hsum : mask.sum ≤ mask.length := by
      calc mask.sum ≤ mask.length * 1 := by
              simpa using List.sum_le_card_nsmul mask 1 hone
        _ = mask.length := by ring
    have hdiv : mask.sum / mask.length ≤ 1 := by
      calc mask.sum / mask.length ≤ mask.length / mask.length :=
              Nat.div_le_div_right hsum
        _ = 1 := Nat.div_self (Nat.pos_of_ne_zero hlen)
    simp only [guardedPercent, if_pos hlen]
    calc mask.sum / mask.length * 100 ≤ 1 * 100 := Nat.mul_le_mul_right 100 hdiv
      _ = 100 := by ring

/-- C4 (amended): the aggregate coverage entry for an hour is the NUMBER of
unioned coverage shapes containing it — the logical OR only when no hour
lies inside two shapes — and the total coverage percent is the SUM of
per-shape percents, which can exceed 100 when several shapes remain; when a
single unioned shape remains the entries are 0/1 and the total is at most
100. -/
theorem C4_coverage_aggregation {α : Type} (hourPts : List α)
    (unionedCurves : List (α → Bool)) :
    ∃ fin, buildFinalComfOrNot (unionedCurves.map (fun u => containMask u hourPts)) =
        .ok fin ∧
      (unionedCurves = [] → fin = []) ∧
      (unionedCurves ≠ [] → fin.length = hourPts.length ∧
        ∀ i (hi : i < hourPts.length),
          fin.getD i 0 = unionedCurves.countP (fun u => u (hourPts.get ⟨i, hi⟩))) ∧
      (∀ u, unionedCurves = [u] →
        ((unionedCurves.map (fun c => guardedPercent (containMask c hourPts))).sum ≤ 100 ∧
          ∀ x ∈ fin, x ≤ 1)) := by
  match hcase : unionedCurves with
  | [] => exact ⟨[], rfl, fun _ => rfl, fun h => absurd rfl h, fun u hu => by simp at hu⟩
  | u0 :: us =>
    obtain ⟨r, hr, hrlen, hri⟩ := buildFinalComfOrNotGo_spec
      (us.map (fun u => containMask u hourPts)) (containMask u0 hourPts)
      (fun m hm => by
        obtain ⟨u, _, hu⟩ := List.mem_map.mp hm
        rw [← hu, containMask_length, containMask_length])
    refine ⟨r, hr, fun h => by simp at h, fun _ => ⟨?_, fun i hi => ?_⟩, fun u hu => ?_⟩
    · rw [hrlen, containMask_length]
    · have hi' : i < (containMask u0 hourPts).length := by
        rw [containMask_length]; exact hi
      rw [hri i hi', containMask_getD u0 hourPts i hi]
      have hmap : (us.map (fun u => containMask u hourPts)).map (fun m => m.getD i 0) =
          us.map (fun u => if u (hourPts.get ⟨i, hi⟩) then 1 else 0) := by
        rw [List.map_map]
        exact List.map_congr_left (fun u _ => containMask_getD u hourPts i hi)
      rw [hmap, sum_indicator_countP, List.countP_cons]
      by_cases h0 : u0 (hourPts.get ⟨i, hi⟩) <;> simp [h0, Nat.add_comm]
    · obtain ⟨hu0, hus⟩ := List.cons.inj hu
      subst hu0; subst hus
      constructor
      · simpa using guardedPercent_le_100_of_entries_le_one (containMask u0 hourPts)
          (containMask_entry_le_one u0 hourPts)
      · intro x hx
        have : r = containMask u0 hourPts := by
          simpa [buildFinalComfOrNot, buildFinalComfOrNotGo] using hr.symm
        rw [this] at hx
        exact containMask_entry_le_one u0 hourPts x hx

/-- Witness for C4 at a concrete single-shape input. -/
theorem C4_coverage_aggregation_witness :
    ∃ fin, buildFinalComfOrNot ([fun _ : Unit => true].map (fun u => containMask u [()])) =
        .ok fin ∧
      (([fun _ : Unit => true] : List (Unit → Bool)) = [] → fin = []) ∧
      (([fun _ : Unit => true] : List (Unit → Bool)) ≠ [] → fin.length = [()].length ∧
        ∀ i (hi : i < [()].length),
          fin.getD i 0 = [fun _ : Unit => true].countP (fun u => u ([()].get ⟨i, hi⟩))) ∧
      (∀ u, ([fun _ : Unit => true] : List (Unit → Bool)) = [u] →
        (([fun _ : Unit => true].map
            (fun c => guardedPercent (containMask c [()]))).sum ≤ 100 ∧
          ∀ x ∈ fin, x ≤ 1)) :=
  C4_coverage_aggregation [()] [fun _ => true]

/-! ## colorMesh: the histogram binning
("Ladybug_Psychrometric Chart.py", lines 743-786).

The mesh frequency grid has 20 relative-humidity rows of 70 temperature
cells.  `getTempIndex` keeps an hour only when `-20 < t < 50` and places it
at `int(round(t + 19.5))` (IronPython 2 `round` is half-away-from-zero; the
`int` conversion is the identity on the integral rounding result).  The
humidity row is the `elif` chain over multiples of 5, whose final `else`
collects everything at or above 95.  Appending `1` to a cell list and
summing at the end is embedded as a counter increment; the final
`finalMeshFrequency` is the row-major flattening of the grid. -/

/-- IronPython 2 `round`: round half away from zero. -/
def pyRound (q : ℚ) : Int :=
  if 0 ≤ q then ⌊q + 1 / 2⌋ else ⌈q - 1 / 2⌉

/-- `getTempIndex` (lines 751-755), as a function of the hour's temperature:
-1 marks a dropped sample. -/
def getTempIndex (t : ℚ) : Int :=
  if -20 < t ∧ t < 50 then pyRound (t + 39 / 2) else -1

/-- The `elif` chain over the relative humidity (lines 760-779). -/
def rhBin (humid : ℚ) : Nat :=
  if humid < 5 then 0 else if humid < 10 then 1 else if humid < 15 then 2
  else if humid < 20 then 3 else if humid < 25 then 4 else if humid < 30 then 5
  else if humid < 35 then 6 else if humid < 40 then 7 else if humid < 45 then 8
  else if humid < 50 then 9 else if humid < 55 then 10 else if humid < 60 then 11
  else if humid < 65 then 12 else if humid < 70 then 13 else if humid < 75 then 14
  else if humid < 80 then 15 else if humid < 85 then 16 else if humid < 90 then 17
  else if humid < 95 then 18 else 19

/-- The 20 x 70 grid of cell counters (lines 745-749). -/
def emptyMeshFrequency : List (List Nat) := List.replicate 20 (List.replicate 70 0)

/-- `meshFrequency[rh][tIdx].append(1)`, as a counter increment. -/
def bumpCell (g : List (List Nat)) (rh tIdx : Nat) : List (List Nat) :=
  g.set rh ((g.getD rh []).set tIdx ((g.getD rh []).getD tIdx 0 + 1))

/-- The `for hour, humid in enumerate(relHumid)` loop (lines 757-779), over
the pre-fetched (temperature, humidity) pairs. -/
def colorMeshLoop : List (ℚ × ℚ) → List (List Nat) → List (List Nat)
  | [], g => g
  | (t, h) :: rest, g =>
    colorMeshLoop rest
      (if getTempIndex t ≠ -1 then bumpCell g (rhBin h) (getTempIndex t).toNat else g)

/-- Fetching `airTemp[hour]` for each index of `relHumid`: a humidity list
longer than the temperature list raises IndexError inside `getTempIndex`. -/
def zipTempHumid (airTemp : List ℚ) : Nat → List ℚ → Except PyErr (List (ℚ × ℚ))
  | _, [] => .ok []
  | hour, h :: rest =>
    match airTemp.get? hour with
    | some t => (zipTempHumid airTemp (hour + 1) rest).map (fun l => (t, h) :: l)
    | none => .error .indexError

/-- `finalMeshFrequency` (lines 782-786): the row-major cell frequencies. -/
def finalMeshFrequency (airTemp relHumid : List ℚ) : Except PyErr (List Nat) :=
  (zipTempHumid airTemp 0 relHumid).map
    (fun pairs => (colorMeshLoop pairs emptyMeshFrequency).flatten)

/-! ### Lemmas for the C5 histogram claim -/

theorem getTempIndex_eq_floor (t : ℚ) (h1 : -20 < t) (h2 : t < 50) :
    getTempIndex t = ⌊t + 20⌋ := by
  unfold getTempIndex pyRound
  rw [if_pos (show -20 < t ∧ t < 50 from ⟨h1, h2⟩)]
  split_ifs with hc
  · congr 1
    ring
  · have hceil : ⌈t + 39 / 2 - 1 / 2⌉ = 0 := by
      rw [Int.ceil_eq_iff]
      constructor <;> push_cast <;> linarith
    have hfloor : ⌊t + 20⌋ = 0 := by
      rw [Int.floor_eq_iff]
      constructor <;> push_cast <;> linarith
    rw [hceil, hfloor]

theorem getTempIndex_range (t : ℚ) (h1 : -20 < t) (h2 : t < 50) :
    0 ≤ getTempIndex t ∧ getTempIndex t < 70 := by
  rw [getTempIndex_eq_floor t h1 h2]
  constructor
  · exact Int.le_floor.mpr (by push_cast; linarith)
  · exact Int.floor_lt.mpr (by push_cast; linarith)

theorem getTempIndex_eq_neg_one (t : ℚ) (hc : ¬(-20 < t ∧ t < 50)) :
    getTempIndex t = -1 := by
  unfold getTempIndex
  rw [if_neg hc]

theorem getTempIndex_ne_neg_one (t : ℚ) :
    getTempIndex t ≠ -1 ↔ (-20 < t ∧ t < 50) := by
  constructor
  · intro hne
    by_contra hcon
    exact hne (getTempIndex_eq_neg_one t hcon)
  · intro hc
    obtain ⟨hb, _⟩ := getTempIndex_range t hc.1 hc.2
    omega

theorem rhBin_lt_20 (h : ℚ) : rhBin h < 20 := by
  unfold rhBin
  by_cases c1 : h < 5
  · rw [if_pos c1]; norm_num
  rw [if_neg c1]
  by_cases c2 : h < 10
  · rw [if_pos c2]; norm_num
  rw [if_neg c2]
  by_cases c3 : h < 15
  · rw [if_pos c3]; norm_num
  rw [if_neg c3]
  by_cases c4 : h < 20
  · rw [if_pos c4]; norm_num
  rw [if_neg c4]
  by_cases c5 : h < 25
  · rw [if_pos c5]; norm_num
  rw [if_neg c5]
  by_cases c6 : h < 30
  · rw [if_pos c6]; norm_num
  rw [if_neg c6]
  by_cases c7 : h < 35
  · rw [if_pos c7]; norm_num
  rw [if_neg c7]
  by_cases c8 : h < 40
  · rw [if_pos c8]; norm_num
  rw [if_neg c8]
  by_cases c9 : h < 45
  · rw [if_pos c9]; norm_num
  rw [if_neg c9]
  by_cases c10 : h < 50
  · rw [if_pos c10]; norm_num
  rw [if_neg c10]
  by_cases c11 : h < 55
  · rw [if_pos c11]; norm_num
  rw [if_neg c11]
  by_cases c12 : h < 60
  · rw [if_pos c12]; norm_num
  rw [if_neg c12]
  by_cases c13 : h < 65
  · rw [if_pos c13]; norm_num
  rw [if_neg c13]
  by_cases c14 : h < 70
  · rw [if_pos c14]; norm_num
  rw [if_neg c14]
  by_cases c15 : h < 75
  · rw [if_pos c15]; norm_num
  rw [if_neg c15]
  by_cases c16 : h < 80
  · rw [if_pos c16]; norm_num
  rw [if_neg c16]
  by_cases c17 : h < 85
  · rw [if_pos c17]; norm_num
  rw [if_neg c17]
  by_cases c18 : h < 90
  · rw [if_pos c18]; norm_num
  rw [if_neg c18]
  by_cases c19 : h < 95
  · rw [if_pos c19]; norm_num
  rw [if_neg c19]
  norm_num

theorem floor_div5_eq (h : ℚ) (k : Nat) (h1 : (5 * k : ℚ) ≤ h) (h2 : h < 5 * (k + 1)) :
    ⌊h / 5⌋ = k := by
  rw [Int.floor_eq_iff]
  constructor
  · rw [le_div_iff₀ (by norm_num : (0:ℚ) < 5)]
    push_cast
    linarith
  · rw [div_lt_iff₀ (by norm_num : (0:ℚ) < 5)]
    push_cast
    linarith

theorem rhBin_eq_min_floor (h : ℚ) (h0 : 0 ≤ h) :
    (rhBin h : Int) = min ⌊h / 5⌋ 19 := by
  unfold rhBin
  by_cases c1 : h < 5
  · rw [if_pos c1, floor_div5_eq h 0 (by push_cast; linarith) (by push_cast; linarith),
      min_eq_left (by push_cast)]
  rw [if_neg c1]
  by_cases c2 : h < 10
  · rw [if_pos c2, floor_div5_eq h 1 (by push_cast; linarith) (by push_cast; linarith),
      min_eq_left (by push_cast)]
  rw [if_neg c2]
  by_cases c3 : h < 15
  · rw [if_pos c3, floor_div5_eq h 2 (by push_cast; linarith) (by push_cast; linarith),
      min_eq_left (by push_cast)]
  rw [if_neg c3]
  by_cases c4 : h < 20
  · rw [if_pos c4, floor_div5_eq h 3 (by push_cast; linarith) (by push_cast; linarith),
      min_eq_left (by push_cast)]
  rw [if_neg c4]
  by_cases c5 : h < 25
  · rw [if_pos c5, floor_div5_eq h 4 (by push_cast; linarith) (by push_cast; linarith),
      min_eq_left (by push_cast)]
  rw [if_neg c5]
  by_cases c6 : h < 30
  · rw [if_pos c6, floor_div5_eq h 5 (by push_cast; linarith) (by push_cast; linarith),
      min_eq_left (by push_cast)]
  rw [if_neg c6]
  by_cases c7 : h < 35
  · rw [if_pos c7, floor_div5_eq h 6 (by push_cast; linarith) (by push_cast; linarith),
      min_eq_left (by push_cast)]
  rw [if_neg c7]
  by_cases c8 : h < 40
  · rw [if_pos c8, floor_div5_eq h 7 (by push_cast; linarith) (by push_cast; linarith),
      min_eq_left (by push_cast)]
  rw [if_neg c8]
  by_cases c9 : h < 45
  · rw [if_pos c9, floor_div5_eq h 8 (by push_cast; linarith) (by push_cast; linarith),
      min_eq_left (by push_cast)]
  rw [if_neg c9]
  by_cases c10 : h < 50
  · rw [if_pos c10, floor_div5_eq h 9 (by push_cast; linarith) (by push_cast; linarith),
      min_eq_left (by push_cast)]
  rw [if_neg c10]
  by_cases c11 : h < 55
  · rw [if_pos c11, floor_div5_eq h 10 (by push_cast; linarith) (by push_cast; linarith),
      min_eq_left (by push_cast)]
  rw [if_neg c11]
  by_cases c12 : h < 60
  · rw [if_pos c12, floor_div5_eq h 11 (by push_cast; linarith) (by push_cast; linarith),
      min_eq_left (by push_cast)]
  rw [if_neg c12]
  by_cases c13 : h < 65
  · rw [if_pos c13, floor_div5_eq h 12 (by push_cast; linarith) (by push_cast; linarith),
      min_eq_left (by push_cast)]
  rw [if_neg c13]
  by_cases c14 : h < 70
  · rw [if_pos c14, floor_div5_eq h 13 (by push_cast; linarith) (by push_cast; linarith),
      min_eq_left (by push_cast)]
  rw [if_neg c14]
  by_cases c15 : h < 75
  · rw [if_pos c15, floor_div5_eq h 14 (by push_cast; linarith) (by push_cast; linarith),
      min_eq_left (by push_cast)]
  rw [if_neg c15]
  by_cases c16 : h < 80
  · rw [if_pos c16, floor_div5_eq h 15 (by push_cast; linarith) (by push_cast; linarith),
      min_eq_left (by push_cast)]
  rw [if_neg c16]
  by_cases c17 : h < 85
  · rw [if_pos c17, floor_div5_eq h 16 (by push_cast; linarith) (by push_cast; linarith),
      min_eq_left (by push_cast)]
  rw [if_neg c17]
  by_cases c18 : h < 90
  · rw [if_pos c18, floor_div5_eq h 17 (by push_cast; linarith) (by push_cast; linarith),
      min_eq_left (by push_cast)]
  rw [if_neg c18]
  by_cases c19 : h < 95
  · rw [if_pos c19, floor_div5_eq h 18 (by push_cast; linarith) (by push_cast; linarith),
      min_eq_left (by push_cast)]
  rw [if_neg c19]
  have h19 : (19 : ℤ) ≤ ⌊h / 5⌋ := by
    apply Int.le_floor.mpr
    rw [le_div_iff₀ (by norm_num : (0:ℚ) < 5)]
    push_cast
    linarith
  rw [min_eq_right h19]
  norm_num

theorem sum_set_bump : ∀ (l : List Nat) (i : Nat), i < l.length →
    (l.set i (l.getD i 0 + 1)).sum = l.sum + 1 := by
  intro l
  induction l with
  | nil => intro i hi; simp at hi
  | cons x xs ih =>
    intro i hi
    match i with
    | 0 => simp [List.set]; omega
    | j + 1 =>
      simp only [List.set, List.getD_cons_succ, List.sum_cons]
      rw [ih j (by simpa using hi)]
      omega

theorem map_sum_bump : ∀ (g : List (List Nat)) (rh : Nat), rh < g.length →
    ∀ tIdx, tIdx < (g.getD rh []).length →
      ((bumpCell g rh tIdx).map List.sum).sum = (g.map List.sum).sum + 1 := by
  intro g
  induction g with
  | nil => intro rh h; simp at h
  | cons row rows ih =>
    intro rh hrh tIdx htIdx
    match rh with
    | 0 =>
      simp only [bumpCell, List.getD_cons_zero, List.set, List.map_cons, List.sum_cons]
      rw [sum_set_bump row tIdx (by simpa using htIdx)]
      omega
    | j + 1 =>
      have hj : j < rows.length := by simpa using hrh
      have htj : tIdx < (rows.getD j []).length := by simpa using htIdx
      have hstep := ih j hj tIdx htj
      simp only [bumpCell, List.getD_cons_succ, List.set, List.map_cons, List.sum_cons]
      simp only [bumpCell] at hstep
      omega

theorem bumpCell_length (g : List (List Nat)) (rh tIdx : Nat) :
    (bumpCell g rh tIdx).length = g.length := by
  simp [bumpCell]

theorem bumpCell_rows (g : List (List Nat)) (rh tIdx : Nat) (n : Nat)
    (hrows : ∀ row ∈ g, row.length = n) (hrh : rh < g.length) :
    ∀ row ∈ bumpCell g rh tIdx, row.length = n := by
  intro row hrow
  rcases List.mem_or_eq_of_mem_set hrow with hmem | heq
  · exact hrows row hmem
  · subst heq
    rw [List.length_set]
    apply hrows
    rw [List.getD_eq_getElem _ _ hrh]
    exact List.getElem_mem hrh

theorem colorMeshLoop_sum (pairs : List (ℚ × ℚ)) :
    ∀ g : List (List Nat), g.length = 20 → (∀ row ∈ g, row.length = 70) →
      ((colorMeshLoop pairs g).map List.sum).sum =
        (g.map List.sum).sum + pairs.countP (fun th => decide (-20 < th.1 ∧ th.1 < 50)) := by
  induction pairs with
  | nil => intro g _ _; simp [colorMeshLoop]
  | cons th rest ih =>
    obtain ⟨t, h⟩ := th
    intro g hg hrows
    by_cases hc : -20 < t ∧ t < 50
    · have hne : getTempIndex t ≠ -1 := (getTempIndex_ne_neg_one t).mpr hc
      have hrh : rhBin h < g.length := by rw [hg]; exact rhBin_lt_20 h
      have hrowlen : (g.getD (rhBin h) []).length = 70 := by
        apply hrows
        rw [List.getD_eq_getElem _ _ hrh]
        exact List.getElem_mem hrh
      have htIdx : (getTempIndex t).toNat < (g.getD (rhBin h) []).length := by
        obtain ⟨hb1, hb2⟩ := getTempIndex_range t hc.1 hc.2
        rw [hrowlen]; omega
      simp only [colorMeshLoop, if_pos hne]
      rw [ih (bumpCell g (rhBin h) (getTempIndex t).toNat)
          (by rw [bumpCell_length, hg]) (bumpCell_rows g _ _ 70 hrows hrh)]
      rw [map_sum_bump g (rhBin h) hrh (getTempIndex t).toNat htIdx, List.countP_cons]
      have hdec : decide (-20 < t ∧ t < 50) = true := by
        simp only [decide_eq_true_eq]
        exact hc
      simp [hdec]
      omega
    · have heq : getTempIndex t = -1 := by simp [getTempIndex, hc]
      simp only [colorMeshLoop, heq]
      rw [if_neg (by simp)]
      rw [ih g hg hrows, List.countP_cons]
      simp [hc]

theorem zipTempHumid_ok (airTemp : List ℚ) :
    ∀ (rest : List ℚ) (start : Nat), start + rest.length ≤ airTemp.length →
      ∃ pairs, zipTempHumid airTemp start rest = .ok pairs := by
  intro rest
  induction rest with
  | nil => intro start _; exact ⟨[], rfl⟩
  | cons h tail ih =>
    intro start hle
    have hstart : start < airTemp.length := by
      simp only [List.length_cons] at hle; omega
    obtain ⟨t, ht⟩ : ∃ u, airTemp[start]? = some u :=
      ⟨airTemp[start], List.getElem?_eq_getElem hstart⟩
    obtain ⟨pairs, hp⟩ := ih (start + 1) (by simp only [List.length_cons] at hle; omega)
    exact ⟨(t, h) :: pairs, by simp [zipTempHumid, List.get?_eq_getElem?, ht, hp, Except.map]⟩

/-- C5 (amended): the sum of all histogram cell frequencies equals the number
of samples with temperature strictly between -20 and 50 (a sample at exactly
-20 is dropped, the source test being `airTemp[hour] > -20`); a counted
sample goes to temperature bin `floor(t + 20)` and to humidity row
`min(floor(rh / 5), 19)` (humidities at or above 95, including 100, land in
the last row); samples outside the open interval are dropped. -/
theorem C5_histogram_sum (airTemp relHumid : List ℚ)
    (hlen : relHumid.length ≤ airTemp.length) :
    (∃ pairs, zipTempHumid airTemp 0 relHumid = .ok pairs ∧
      finalMeshFrequency airTemp relHumid =
        .ok (colorMeshLoop pairs emptyMeshFrequency).flatten ∧
      ((colorMeshLoop pairs emptyMeshFrequency).flatten).sum =
        pairs.countP (fun th => decide (-20 < th.1 ∧ th.1 < 50))) ∧
    (∀ t : ℚ, -20 < t → t < 50 → getTempIndex t = ⌊t + 20⌋) ∧
    (∀ t : ℚ, ¬(-20 < t ∧ t < 50) → getTempIndex t = -1) ∧
    (∀ h : ℚ, 0 ≤ h → (rhBin h : Int) = min ⌊h / 5⌋ 19) := by
  refine ⟨?_, getTempIndex_eq_floor, getTempIndex_eq_neg_one, rhBin_eq_min_floor⟩
  obtain ⟨pairs, hp⟩ := zipTempHumid_ok airTemp relHumid 0 (by omega)
  refine ⟨pairs, hp, ?_, ?_⟩
  · simp [finalMeshFrequency, hp, Except.map]
  · rw [List.sum_flatten,
      colorMeshLoop_sum pairs emptyMeshFrequency (by simp [emptyMeshFrequency])
        (fun row hrow => by rw [List.eq_of_mem_replicate hrow]; simp)]
    simp [emptyMeshFrequency]

/-- Witness for C5 at a concrete input. -/
theorem C5_histogram_sum_witness :
    (∃ pairs, zipTempHumid [(0 : ℚ)] 0 [(50 : ℚ)] = .ok pairs ∧
      finalMeshFrequency [(0 : ℚ)] [(50 : ℚ)] =
        .ok (colorMeshLoop pairs emptyMeshFrequency).flatten ∧
      ((colorMeshLoop pairs emptyMeshFrequency).flatten).sum =
        pairs.countP (fun th => decide (-20 < th.1 ∧ th.1 < 50))) ∧
    (∀ t : ℚ, -20 < t → t < 50 → getTempIndex t = ⌊t + 20⌋) ∧
    (∀ t : ℚ, ¬(-20 < t ∧ t < 50) → getTempIndex t = -1) ∧
    (∀ h : ℚ, 0 ≤ h → (rhBin h : Int) = min ⌊h / 5⌋ 19) :=
  C5_histogram_sum [(0 : ℚ)] [(50 : ℚ)] (by simp)

set_option maxRecDepth 20000 in
/-- C5 counterexample: a sample at exactly -20 degrees is dropped (total
frequency 0, where the claim's interval [-20, 50) counts it), and a relative
humidity of exactly 100 lands in row 19 although floor(100 / 5) = 20. -/
theorem C5_boundary_counterexample :
    Except.map List.sum (finalMeshFrequency [(-20 : ℚ)] [(50 : ℚ)]) = .ok 0 ∧
    ((-20 : ℚ) ≤ -20 ∧ (-20 : ℚ) < 50) ∧
    rhBin 100 = 19 ∧ ⌊(100 : ℚ) / 5⌋ = 20 := by
  refine ⟨rfl, by norm_num, by decide, ?_⟩
  have h5 : (100 : ℚ) / 5 = ((20 : ℤ) : ℚ) := by norm_num
  rw [h5, Int.floor_intCast]

/-! ## calcComfAndStrategyPolygons: the "Occupant Use of Fans" strategy
("Ladybug_Psychrometric Chart.py", lines 945-948 and 1157-1170).

Before any strategy is built the source mutates its parameter lists:
`windSpeed.sort(); windSpeed[0] = windSpeed[-1]` (so index 0 afterwards holds
the LARGEST wind speed) and `cloLevel.sort(); cloLevel[0] = cloLevel[0]` (a
no-op assignment after an in-place sort, so index 0 holds the smallest
clothing level).  The strategy loop runs over `[mergedCurvesFinal[0]]` alone,
so `comfCount` is always 0.  The fan strategy is built iff "Occupant Use of
Fans" was requested and `windSpeed[0] < maxWindSpeed`; when built, the wider
envelope comes from `lb_comfortModels.calcComfRange(radTemp[0]+2,
radTemp[0]-2, radTemp[0], maxWindSpeed, humidity, metRate[0], cloLevel[0],
exWork[0], eightyPercentComfort)` — an external comfort model, embedded as
the record of the scalar arguments handed to it (`radTempArg` is the base
radiant temperature from which the `+2`/`-2` variants are derived). -/

/-- The scalar arguments of the `calcComfRange` call for the fan strategy. -/
structure ComfRangeCall : Type where
  windArg : ℚ
  radTempArg : ℚ
  metRateArg : ℚ
  cloArg : ℚ
  exWorkArg : ℚ
deriving DecidableEq, Repr

/-- `windSpeed.sort(); windSpeed[0] = windSpeed[-1]`: raises IndexError on an
empty list. -/
def organizedWindSpeed (windSpeed : List ℚ) : Except PyErr (List ℚ) :=
  match List.insertionSort (· ≤ ·) windSpeed with
  | [] => .error .indexError
  | w :: ws => .ok (((w :: ws).getLast (List.cons_ne_nil w ws)) :: ws)

/-- The fan-strategy slice: `some call` when the strategy region is built
(recording the `calcComfRange` arguments), `none` when it is skipped. -/
def fanStrategySlice (passiveStrategy : List String)
    (windSpeed radTemp metRate cloLevel exWork : List ℚ) (maxWindSpeed : ℚ) :
    Except PyErr (Option ComfRangeCall) :=
  match organizedWindSpeed windSpeed with
  | .error e => .error e
  | .ok ws =>
    let cl := List.insertionSort (· ≤ ·) cloLevel
    if "Occupant Use of Fans" ∈ passiveStrategy ∧ ws.headI < maxWindSpeed then
      match radTemp.head?, metRate.head?, cl.head?, exWork.head? with
      | some rt, some mr, some c, some ew => .ok (some ⟨maxWindSpeed, rt, mr, c, ew⟩)
      | _, _, _, _ => .error .indexError
    else
      .ok none

/-! ### Lemmas for the C9 fan-strategy claim -/

theorem sorted_le_getLast :
    ∀ (l : List ℚ) (hl : l ≠ []), l.Sorted (· ≤ ·) → ∀ a ∈ l, a ≤ l.getLast hl := by
  intro l
  induction l with
  | nil => intro hl; exact absurd rfl hl
  | cons x xs ih =>
    intro _ hs a ha
    match xs, ha with
    | [], ha => simp at ha; simp [ha, List.getLast]
    | y :: ys, ha =>
      rw [List.getLast_cons (List.cons_ne_nil y ys)]
      rcases List.mem_cons.mp ha with h | h
      · subst h
        calc a ≤ (y :: ys).getLast (List.cons_ne_nil y ys) := by
              have hy : a ≤ y := (List.sorted_cons.mp hs).1 y (List.mem_cons_self y ys)
              have hmem := List.getLast_mem (l := y :: ys) (List.cons_ne_nil y ys)
              rcases List.mem_cons.mp hmem with hg | hg
              · rw [← hg] at hy; exact hy
              · exact le_trans hy ((List.sorted_cons.mp (List.sorted_cons.mp hs).2).1 _ hg)
          _ = (y :: ys).getLast (List.cons_ne_nil y ys) := rfl
      · exact ih (List.cons_ne_nil y ys) (List.sorted_cons.mp hs).2 a h

theorem organizedWindSpeed_gate (windSpeed : List ℚ) (hws : windSpeed ≠ [])
    (maxW : ℚ) :
    ∃ ws, organizedWindSpeed windSpeed = .ok ws ∧
      (ws.headI < maxW ↔ ∀ w ∈ windSpeed, w < maxW) := by
  have hperm := List.perm_insertionSort (· ≤ ·) windSpeed
  have hsorted := List.sorted_insertionSort (· ≤ ·) windSpeed
  cases hs : List.insertionSort (· ≤ ·) windSpeed with
  | nil =>
    rw [hs] at hperm
    exact absurd hperm.nil_eq.symm hws
  | cons w ws =>
    rw [hs] at hperm hsorted
    refine ⟨((w :: ws).getLast (List.cons_ne_nil w ws)) :: ws, ?_, ?_⟩
    · unfold organizedWindSpeed
      rw [hs]
    · simp only [List.headI]
      constructor
      · intro hlt x hx
        have hx' : x ∈ w :: ws := hperm.mem_iff.mpr hx
        exact lt_of_le_of_lt
          (sorted_le_getLast (w :: ws) (List.cons_ne_nil w ws) hsorted x hx') hlt
      · intro hall
        exact hall _ (hperm.mem_iff.mp (List.getLast_mem (List.cons_ne_nil w ws)))

/-- C9 (amended): the "Occupant Use of Fans" strategy is built iff it was
requested and `maxWindSpeed` strictly exceeds EVERY parameter set's wind
speed — i.e. the maximum over the whole list, because the gate reads
`windSpeed[0]` after the list was sorted and its first entry overwritten with
its last; when built, the wider envelope is recomputed with `maxWindSpeed` in
the wind-speed slot, the first-set radiant temperature, metabolic rate and
external work, and the smallest clothing level (the clothing list having been
sorted in place). -/
theorem C9_fan_strategy_gate (passiveStrategy : List String)
    (windSpeed radTemp metRate cloLevel exWork : List ℚ) (maxWindSpeed : ℚ)
    (hws : windSpeed ≠ []) (hrt : radTemp ≠ []) (hmr : metRate ≠ [])
    (hcl : cloLevel ≠ []) (hew : exWork ≠ []) :
    (("Occupant Use of Fans" ∈ passiveStrategy ∧ ∀ w ∈ windSpeed, w < maxWindSpeed) →
      fanStrategySlice passiveStrategy windSpeed radTemp metRate cloLevel exWork
          maxWindSpeed =
        .ok (some ⟨maxWindSpeed, radTemp.headI, metRate.headI,
          (List.insertionSort (· ≤ ·) cloLevel).headI, exWork.headI⟩)) ∧
    (¬("Occupant Use of Fans" ∈ passiveStrategy ∧ ∀ w ∈ windSpeed, w < maxWindSpeed) →
      fanStrategySlice passiveStrategy windSpeed radTemp metRate cloLevel exWork
          maxWindSpeed = .ok none) := by
  obtain ⟨ws, hok, hiff⟩ := organizedWindSpeed_gate windSpeed hws maxWindSpeed
  have hclne : List.insertionSort (· ≤ ·) cloLevel ≠ [] := by
    intro hnil
    have := List.perm_insertionSort (· ≤ ·) cloLevel
    rw [hnil] at this
    exact hcl this.nil_eq.symm
  obtain ⟨rt, rts, hrteq⟩ := List.exists_cons_of_ne_nil hrt
  obtain ⟨mr, mrs, hmreq⟩ := List.exists_cons_of_ne_nil hmr
  obtain ⟨c, cs, hceq⟩ := List.exists_cons_of_ne_nil hclne
  obtain ⟨ew, ews, heweq⟩ := List.exists_cons_of_ne_nil hew
  constructor
  · rintro ⟨hmem, hall⟩
    have hgate : ws.headI < maxWindSpeed := hiff.mpr hall
    unfold fanStrategySlice
    rw [hok]
    dsimp only
    rw [if_pos ⟨hmem, hgate⟩, hrteq, hmreq, hceq, heweq]
    simp [List.headI]
  · intro hneg
    have hgate : ¬(("Occupant Use of Fans" ∈ passiveStrategy) ∧ ws.headI < maxWindSpeed) := by
      rintro ⟨hmem, hlt⟩
      exact hneg ⟨hmem, hiff.mp hlt⟩
    unfold fanStrategySlice
    rw [hok]
    dsimp only
    rw [if_neg hgate]

/-- Witness for C9 at a concrete input where the strategy is built. -/
theorem C9_fan_strategy_gate_witness :
    fanStrategySlice ["Occupant Use of Fans"] [(1 : ℚ)] [23] [1] [1] [0] 2 =
      .ok (some ⟨2, [(23 : ℚ)].headI, [(1 : ℚ)].headI,
        (List.insertionSort (· ≤ ·) [(1 : ℚ)]).headI, [(0 : ℚ)].headI⟩) :=
  (C9_fan_strategy_gate ["Occupant Use of Fans"] [(1 : ℚ)] [23] [1] [1] [0] 2
    (by simp) (by simp) (by simp) (by simp) (by simp)).1
    ⟨by simp, by intro w hw; rw [List.mem_singleton.mp hw]; norm_num⟩

/-- C9 counterexample: maxWindSpeed 2 strictly exceeds the FIRST parameter
set's wind speed 1, yet the strategy is skipped, because the gate compares
against the list maximum 5 (the sorted list's first entry was overwritten
with its last before the check). -/
theorem C9_first_set_counterexample :
    fanStrategySlice ["Occupant Use of Fans"] [(1 : ℚ), 5] [23] [1] [1] [0] 2 =
      .ok none ∧
    (1 : ℚ) < 2 := by
  constructor
  · rfl
  · norm_num
